import Mathlib

/-!
Verification of the DineDash order-lifecycle and delivery-matching subsystem.

The definitions below are a shallow embedding of the order/delivery code of
the repository (src/dinedashapp/models.py, src/dinedashapp/views.py,
src/dinedashapp/forms.py, src/dinedashapp/geo.py).

Conventions of the embedding:
- Django `DecimalField(max_digits=6, decimal_places=2)` money amounts are
  embedded as integers counting hundredths of a currency unit ("cents"):
  the decimal 5.00 is the integer 500, 3.50 is 350, 13.50 is 1350.  This is
  an exact representation of the fixed-point decimals the code stores.
- Coordinates (`DecimalField(..., decimal_places=6/7)`) are embedded as a
  pair of integers in units of 10^-6 degrees: the coordinate 0.05 is the
  integer 50000, 0.2 is 200000.
- Database tables are lists of records; a Django `Model.save()` on a fetched
  row is a by-primary-key replacement in the list; `QuerySet.get(...)` is
  `List.find?`; an uncaught `DoesNotExist` (or a constraint violation) is
  the `none` outcome of an `Option DB` returning operation, which leaves the
  database unchanged.
- `django.utils.timezone.now()` is an abstract clock `DB.now : Nat` that a
  `tick` step may advance between requests.
- `geopy.distance.geodesic(...).miles` (an external library call behind
  `geo.get_distance_in_miles`) is kept abstract: the delivery queue takes an
  arbitrary distance function `dist : Coord → Coord → ℚ` as a parameter.

The file src/dinedashapp/models.py of the repository is a stale revision: its
`Order.OrderStatus` enum has four members (Np "Not placed yet", Pl "Placed",
Ip "In progress", De "Delivered") and its `Order` model lacks the
`accepted_by`, `rejected_by` and `minutes_away` columns, while
src/dinedashapp/views.py and src/dinedashapp/forms.py in the same tree
reference the five-member scheme Np/Pl/Rp/It/De together with those columns
(`Order.OrderStatus.READY_FOR_PICKUP`, `Order.OrderStatus.IN_TRANSIT`,
`accepted_by__isnull=True`, `order.rejected_by.add(user)`,
`order.minutes_away = ...`, `user.rejected_orders`, `user.accepted_orders`,
and the form choices "Pl"/"Rp"/"It"/"De").  The embedding of the lifecycle
therefore follows views.py/forms.py (and the spec, which matches them); the
stale models.py enum is embedded separately as `modelsPyOrderStatusValues`
so that the discrepancy itself can be stated and proved.
-/

namespace DineDash

/-- Modelled from the spec: order status, the five-state lifecycle
`UNPLACED → PLACED → READY_FOR_PICKUP → IN_TRANSIT → DELIVERED`.
models.py declares only Np/Pl/Ip/De (it is missing `READY_FOR_PICKUP` and
`IN_TRANSIT`); the five members here are the ones views.py and forms.py
actually use (`NOT_PLACED_YET` "Np", `PLACED` "Pl", `READY_FOR_PICKUP` "Rp",
`IN_TRANSIT` "It", `DELIVERED` "De"). -/
inductive OrderStatus where
  | notPlacedYet
  | placed
  | readyForPickup
  | inTransit
  | delivered
deriving DecidableEq, Repr

/-- Database values of the stale `Order.OrderStatus` enum that models.py
actually declares (models.py lines 305-313): NOT_PLACED_YET "Np",
PLACED "Pl", IN_PROGRESS "Ip", DELIVERED "De". -/
def modelsPyOrderStatusValues : List String := ["Np", "Pl", "Ip", "De"]

/-- Database values of the status choices offered by
`OrdersWithStatusForm` in forms.py (lines 387-397): "Pl", "Rp", "It", "De". -/
def ordersWithStatusFormChoices : List String := ["Pl", "Rp", "It", "De"]

/-- Database value of each status in the five-state scheme used by views.py
and forms.py. -/
def OrderStatus.value : OrderStatus → String
  | .notPlacedYet => "Np"
  | .placed => "Pl"
  | .readyForPickup => "Rp"
  | .inTransit => "It"
  | .delivered => "De"

/-- Immediate successor in the lifecycle chain (none for the terminal
DELIVERED state and none is ever reached from it). -/
def OrderStatus.next : OrderStatus → Option OrderStatus
  | .notPlacedYet => some .placed
  | .placed => some .readyForPickup
  | .readyForPickup => some .inTransit
  | .inTransit => some .delivered
  | .delivered => none

/-- MenuItem (models.py): price in cents; the name and description do not
participate in the order lifecycle and are omitted. -/
structure MenuItem where
  id : Nat
  restaurantId : Nat
  price : Int
deriving DecidableEq, Repr

/-- OrderItem (models.py): one line of an order.  `quantity` is a Django
`PositiveIntegerField`. -/
structure OrderItem where
  id : Nat
  menuItemId : Nat
  orderId : Nat
  quantity : Nat
deriving DecidableEq, Repr

/-- Order (models.py for user/restaurant/total_cost/status/date fields).
Modelled from the spec: the `accepted_by` (nullable contractor reference),
`rejected_by` (many-to-many contractor set, related name `rejected_orders`)
and `minutes_away` (nullable integer) columns are missing from the stale
models.py and are embedded here following the spec data model (section 3)
and their uses in views.py. -/
structure Order where
  id : Nat
  userId : Nat
  restaurantId : Nat
  total_cost : Option Int
  status : OrderStatus
  date_placed : Option Nat
  date_delivered : Option Nat
  accepted_by : Option Nat
  rejected_by : List Nat
  minutes_away : Option Int
deriving DecidableEq, Repr

/-- Payment (models.py): the card-instrument columns carry no lifecycle
logic and are omitted; `amount_paid` is in cents. -/
structure Payment where
  orderId : Nat
  userId : Nat
  amount_paid : Int
deriving DecidableEq, Repr

/-- Restaurant (models.py): only the identity and resolved coordinates
participate in delivery matching. -/
structure Restaurant where
  id : Nat
  location_x_coordinate : Int
  location_y_coordinate : Int
deriving DecidableEq, Repr

/-- CustomerInfo (models.py): identity of the owning user plus resolved
coordinates.  The coordinates are nullable in models.py, but
`PlaceOrderView.dispatch` refuses to place an order for a customer without a
stored location, so every order a contractor can see has a located customer;
the embedding therefore keeps them non-null. -/
structure CustomerInfo where
  userId : Nat
  location_x_coordinate : Int
  location_y_coordinate : Int
deriving DecidableEq, Repr

/-- Modelled from the spec: DeliveryContractorInfo with a resolved
coordinate pair.  The stale models.py declares only the name fields; the
location columns are used by `DeliveryAccountDetailsForm` (forms.py) and by
`delivery_orders_list` (views.py lines 805-808) and are described in the
spec data model (section 3). -/
structure DeliveryContractorInfo where
  id : Nat
  location_x_coordinate : Int
  location_y_coordinate : Int
deriving DecidableEq, Repr

/-- The durable state shared by all requests: one list per table, fresh-id
counters for rows the embedded operations create, and the current time. -/
structure DB where
  restaurants : List Restaurant
  customers : List CustomerInfo
  menuItems : List MenuItem
  orders : List Order
  orderItems : List OrderItem
  payments : List Payment
  nextOrderId : Nat
  nextOrderItemId : Nat
  nextMenuItemId : Nat
  now : Nat
deriving DecidableEq, Repr

/-- Django `order.save()` on a fetched row: replace the row with the same
primary key. -/
def saveOrder (db : DB) (o : Order) : DB :=
  { db with orders := db.orders.map fun x => if x.id == o.id then o else x }

/-- The SQL aggregation inside `Order.calc_total_cost` (models.py lines
320-326): sum of `quantity * menu_item.price` over the line items of the
order, joined against the menu-item table, with `default=0` for an order
with no items. -/
def orderItemsTotal (db : DB) (orderId : Nat) : Int :=
  ((db.orderItems.filter fun it => it.orderId == orderId).filterMap
    fun it => (db.menuItems.find? fun mi => mi.id == it.menuItemId).map
      fun mi => (it.quantity : Int) * mi.price).sum

/-- Order.calc_total_cost (models.py lines 318-327): while the order is
still unplaced the total is aggregated live from the line items and current
menu prices; afterwards the frozen `total_cost` column is returned. -/
def Order.calc_total_cost (o : Order) (db : DB) : Option Int :=
  if o.status = OrderStatus.notPlacedYet then some (orderItemsTotal db o.id)
  else o.total_cost

/-- PlaceOrderView.form_valid (views.py lines 694-709): fetch the requesting
customer's order by id with status NOT_PLACED_YET, set
`amount_paid = order.total_cost = order.calc_total_cost()`, create the
Payment row, then advance the status to PLACED and stamp `date_placed`. -/
def placeOrder (db : DB) (userId orderId : Nat) : Option DB :=
  match db.orders.find? fun o =>
      o.id == orderId && o.userId == userId &&
      decide (o.status = OrderStatus.notPlacedYet) with
  | none => none
  | some o =>
    match o.calc_total_cost db with
    | none => none
    | some t =>
      some { saveOrder db { o with
                            total_cost := some t,
                            status := OrderStatus.placed,
                            date_placed := some db.now } with
             payments := db.payments ++
               [{ orderId := o.id, userId := userId, amount_paid := t }] }

/-- restaurant_orders_list, action mark_as_ready_for_pickup (views.py lines
716-727): fetch the order by id belonging to the requesting restaurant with
status PLACED and advance it to READY_FOR_PICKUP. -/
def markAsReadyForPickup (db : DB) (restaurantId orderId : Nat) : Option DB :=
  match db.orders.find? fun o =>
      o.id == orderId && o.restaurantId == restaurantId &&
      decide (o.status = OrderStatus.placed) with
  | none => none
  | some o => some (saveOrder db { o with status := OrderStatus.readyForPickup })

/-- delivery_orders_list, action accept (views.py lines 748-756): fetch the
order by id with status READY_FOR_PICKUP and `accepted_by__isnull=True`,
assign the requesting contractor and advance the status to IN_TRANSIT. -/
def acceptOrder (db : DB) (contractorId orderId : Nat) : Option DB :=
  match db.orders.find? fun o =>
      o.id == orderId && decide (o.status = OrderStatus.readyForPickup) &&
      o.accepted_by.isNone with
  | none => none
  | some o =>
    some (saveOrder db { o with
                         accepted_by := some contractorId,
                         status := OrderStatus.inTransit })

/-- Django many-to-many `add`: insert the contractor into the rejection set
if not already present. -/
def addRejection (contractorId : Nat) (l : List Nat) : List Nat :=
  if contractorId ∈ l then l else contractorId :: l

/-- delivery_orders_list, action reject (views.py lines 758-760): fetch the
order by id from the rows not accepted by the requesting contractor
(`exclude(accepted_by=user)`, which keeps rows with a null `accepted_by`)
and add the contractor to `rejected_by`. -/
def rejectOrder (db : DB) (contractorId orderId : Nat) : Option DB :=
  match db.orders.find? fun o =>
      o.id == orderId && !(decide (o.accepted_by = some contractorId)) with
  | none => none
  | some o =>
    some (saveOrder db { o with
                         rejected_by := addRejection contractorId o.rejected_by })

/-- delivery_orders_list, action mark_as_delivered (views.py lines
762-770): fetch the order by id with status IN_TRANSIT, advance it to
DELIVERED and stamp `date_delivered` with the current time. -/
def markAsDelivered (db : DB) (orderId : Nat) : Option DB :=
  match db.orders.find? fun o =>
      o.id == orderId && decide (o.status = OrderStatus.inTransit) with
  | none => none
  | some o =>
    some (saveOrder db { o with
                         status := OrderStatus.delivered,
                         date_delivered := some db.now })

/-- delivery_orders_list, action set_minutes_away (views.py lines 772-782):
fetch the order by id with status IN_TRANSIT — the requesting contractor
does not occur in the query — and store `int(request.POST.get(...))`, or
null when that raises ValueError.  `minutesInput` is the outcome of the
`int(...)` parse: `some n` for a numeric payload, `none` for a missing or
non-numeric one. -/
def setMinutesAway (db : DB) ( _contractorId orderId : Nat)
    (minutesInput : Option Int) : Option DB :=
  match db.orders.find? fun o =>
      o.id == orderId && decide (o.status = OrderStatus.inTransit) with
  | none => none
  | some o => some (saveOrder db { o with minutes_away := minutesInput })

/-- The order row Django builds for `get_or_create(restaurant_id=...,
user_id=..., status=NOT_PLACED_YET)` when no row matches: every other
column takes its model default. -/
def newUnplacedOrder (id userId restaurantId : Nat) : Order :=
  { id := id
    userId := userId
    restaurantId := restaurantId
    total_cost := none
    status := OrderStatus.notPlacedYet
    date_placed := none
    date_delivered := none
    accepted_by := none
    rejected_by := []
    minutes_away := none }

/-- CreateOrderItemView.form_valid (views.py lines 610-621) together with
the form validation (CreateOrderItemForm, quantity min_value 1) and the
(menu_item, order) uniqueness constraint: find or create the customer's
unplaced order for the menu item's restaurant and append the line item. -/
def createOrderItem (db : DB) (userId menuItemId quantity : Nat) : Option DB :=
  if quantity == 0 then none
  else
    match db.menuItems.find? fun mi => mi.id == menuItemId with
    | none => none
    | some mi =>
      let found := db.orders.find? fun o =>
        o.userId == userId && o.restaurantId == mi.restaurantId &&
        decide (o.status = OrderStatus.notPlacedYet)
      let db1 := match found with
        | some _ => db
        | none =>
          { db with
            orders := db.orders ++
              [newUnplacedOrder db.nextOrderId userId mi.restaurantId]
            nextOrderId := db.nextOrderId + 1 }
      let orderId := match found with
        | some o => o.id
        | none => db.nextOrderId
      if db1.orderItems.any fun it =>
          it.orderId == orderId && it.menuItemId == menuItemId then none
      else
        some { db1 with
               orderItems := db1.orderItems ++
                 [{ id := db1.nextOrderItemId
                    menuItemId := menuItemId
                    orderId := orderId
                    quantity := quantity }]
               nextOrderItemId := db1.nextOrderItemId + 1 }

/-- EditOrderItemView (views.py lines 624-655): the item must belong to an
unplaced order of the requesting customer; quantity 0 deletes the line item,
any other quantity replaces it. -/
def editOrderItem (db : DB) (userId itemId quantity : Nat) : Option DB :=
  match db.orderItems.find? fun it => it.id == itemId with
  | none => none
  | some it =>
    match db.orders.find? fun o =>
        o.id == it.orderId && o.userId == userId &&
        decide (o.status = OrderStatus.notPlacedYet) with
    | none => none
    | some _ =>
      if quantity == 0 then
        some { db with
               orderItems := db.orderItems.filter fun x => !(x.id == itemId) }
      else
        some { db with
               orderItems := db.orderItems.map fun x =>
                 if x.id == itemId then { x with quantity := quantity } else x }

/-- CreateMenuItemView (views.py lines 419-428): the restaurant adds a menu
item; only the price participates in the order lifecycle. -/
def createMenuItem (db : DB) (restaurantId : Nat) (price : Int) : DB :=
  { db with
    menuItems := db.menuItems ++
      [{ id := db.nextMenuItemId, restaurantId := restaurantId, price := price }]
    nextMenuItemId := db.nextMenuItemId + 1 }

/-- EditMenuItemView (views.py lines 431-440) restricted to the price
column: replace the price of an existing menu item. -/
def setMenuItemPrice (db : DB) (menuItemId : Nat) (price : Int) : Option DB :=
  match db.menuItems.find? fun mi => mi.id == menuItemId with
  | none => none
  | some _ =>
    some { db with
           menuItems := db.menuItems.map fun mi =>
             if mi.id == menuItemId then { mi with price := price } else mi }

/-- Coordinate pair, in units of 10^-6 degrees. -/
abbrev Coord := Int × Int

/-- Coordinates of a delivery contractor as read in views.py lines
805-808. -/
def DeliveryContractorInfo.coordinates (c : DeliveryContractorInfo) : Coord :=
  (c.location_x_coordinate, c.location_y_coordinate)

/-- Membership test of the unassigned delivery queue (views.py lines
789-850): the order must have status READY_FOR_PICKUP, must not have been
rejected by the requesting contractor, and both the restaurant leg and the
customer leg of `get_distance_in_miles` (abstracted as `dist`) must be
within `maxDistance` miles. -/
def queueIncludes (db : DB) (dist : Coord → Coord → ℚ)
    (c : DeliveryContractorInfo) (maxDistance : Int) (o : Order) : Bool :=
  decide (o.status = OrderStatus.readyForPickup) &&
  !(o.rejected_by.contains c.id) &&
  (match db.restaurants.find? fun r => r.id == o.restaurantId,
         db.customers.find? fun cu => cu.userId == o.userId with
   | some r, some cu =>
     decide (dist (r.location_x_coordinate, r.location_y_coordinate)
               c.coordinates ≤ (maxDistance : ℚ)) &&
     decide (dist (cu.location_x_coordinate, cu.location_y_coordinate)
               c.coordinates ≤ (maxDistance : ℚ))
   | _, _ => false)

/-- The unassigned queue a contractor sees (views.py lines 789-850): orders
with status READY_FOR_PICKUP not rejected by the contractor, annotated with
the two distances and kept only when both are within the bound. -/
def unassignedDeliveryQueue (db : DB) (dist : Coord → Coord → ℚ)
    (c : DeliveryContractorInfo) (maxDistance : Int) : List Order :=
  db.orders.filter (queueIncludes db dist c maxDistance)

/-- The max_distance handling of views.py lines 838-845 combined with
`OrdersWithinDistanceForm` (forms.py lines 383-384, an integer field with
min_value 1): the request parameter defaults to 5 when absent, and an
invalid submission (non-numeric, or below 1) falls back to 5.  The raw
parameter is `none` when absent, `some none` when present but non-numeric,
and `some (some n)` for a numeric payload n. -/
def effectiveMaxDistance : Option (Option Int) → Int
  | none => 5
  | some none => 5
  | some (some n) => if 1 ≤ n then n else 5

/-- accepted queue (views.py lines 787-788): orders with status IN_TRANSIT
assigned to the requesting contractor, with no distance filtering. -/
def acceptedDeliveryQueue (db : DB) (c : DeliveryContractorInfo) : List Order :=
  db.orders.filter fun o =>
    decide (o.accepted_by = some c.id) &&
    decide (o.status = OrderStatus.inTransit)

/-- One request against the order/delivery subsystem, used to quantify over
everything that can happen to the durable state after a point in time. -/
inductive Op where
  | createOrderItem (userId menuItemId quantity : Nat)
  | editOrderItem (userId itemId quantity : Nat)
  | placeOrder (userId orderId : Nat)
  | markAsReadyForPickup (restaurantId orderId : Nat)
  | acceptOrder (contractorId orderId : Nat)
  | rejectOrder (contractorId orderId : Nat)
  | markAsDelivered (orderId : Nat)
  | setMinutesAway (contractorId orderId : Nat) (minutesInput : Option Int)
  | createMenuItem (restaurantId : Nat) (price : Int)
  | setMenuItemPrice (menuItemId : Nat) (price : Int)
  | tick
deriving DecidableEq, Repr

/-- Effect of a request on the durable state: a failing request (an uncaught
DoesNotExist, a form validation failure, a constraint violation) mutates
nothing. -/
def applyOp (db : DB) : Op → DB
  | .createOrderItem u mi q => (createOrderItem db u mi q).getD db
  | .editOrderItem u it q => (editOrderItem db u it q).getD db
  | .placeOrder u oid => (placeOrder db u oid).getD db
  | .markAsReadyForPickup rid oid => (markAsReadyForPickup db rid oid).getD db
  | .acceptOrder c oid => (acceptOrder db c oid).getD db
  | .rejectOrder c oid => (rejectOrder db c oid).getD db
  | .markAsDelivered oid => (markAsDelivered db oid).getD db
  | .setMinutesAway c oid m => (setMinutesAway db c oid m).getD db
  | .createMenuItem rid p => createMenuItem db rid p
  | .setMenuItemPrice mi p => (setMenuItemPrice db mi p).getD db
  | .tick => { db with now := db.now + 1 }

/-- A sequence of requests applied in order. -/
def applyOps (db : DB) (ops : List Op) : DB := ops.foldl applyOp db

/-- Well-formedness the storage layer guarantees: primary keys of orders are
unique, and the fresh-id counter is above every existing key. -/
def DB.WF (db : DB) : Prop :=
  (db.orders.map Order.id).Nodup ∧ ∀ o ∈ db.orders, o.id < db.nextOrderId

instance (db : DB) : Decidable db.WF := by
  unfold DB.WF; infer_instance

/-- A state of the durable store before any order activity: the catalogue
(restaurants, customers, menu items) is arbitrary but the order, line-item
and payment tables are empty.  Registration and menu entry are outside the
order subsystem, so they are folded into the choice of the initial state. -/
def DB.Initial (db : DB) : Prop :=
  db.orders = [] ∧ db.orderItems = [] ∧ db.payments = []

/-- A durable state the order/delivery subsystem can actually be in: some
sequence of requests applied to a state with no order activity. -/
def Reachable (db : DB) : Prop :=
  ∃ db0 ops, DB.Initial db0 ∧ applyOps db0 ops = db

/-- Invariant of the spec (section 8): `total_cost` is null exactly while
the order is UNPLACED. -/
def StatusTotalInv (db : DB) : Prop :=
  ∀ o ∈ db.orders, o.status = OrderStatus.notPlacedYet ↔ o.total_cost = none

/-- A recorded rejection that can never be rolled back: the order with the
given id has the contractor in its rejection set (and the id is below the
fresh-id counter, so no later row reuses it). -/
def RejectionSticky (db : DB) (contractorId orderId : Nat) : Prop :=
  orderId < db.nextOrderId ∧
  ∀ o ∈ db.orders, o.id = orderId → contractorId ∈ o.rejected_by

/-- Concrete fixture: the restaurant of the distance scenario, on the
equator 0.05 degrees east of the origin. -/
def demoRestaurant : Restaurant :=
  { id := 10, location_x_coordinate := 0, location_y_coordinate := 50000 }

/-- Concrete fixture: the customer of the distance scenario, on the equator
0.2 degrees east of the origin. -/
def demoCustomer : CustomerInfo :=
  { userId := 1, location_x_coordinate := 0, location_y_coordinate := 200000 }

/-- Concrete fixture: the contractor of the distance scenario, at the
origin. -/
def demoContractor : DeliveryContractorInfo :=
  { id := 3, location_x_coordinate := 0, location_y_coordinate := 0 }

/-- Concrete fixture: a catalogue-only state with two menu items priced
5.00 and 3.50 and no order activity yet. -/
def demoBase : DB :=
  { restaurants := [demoRestaurant]
    customers := [demoCustomer]
    menuItems := [{ id := 1, restaurantId := 10, price := 500 },
                  { id := 2, restaurantId := 10, price := 350 }]
    orders := []
    orderItems := []
    payments := []
    nextOrderId := 7
    nextOrderItemId := 1
    nextMenuItemId := 3
    now := 100 }

/-- Concrete fixture: the cart of the spec's cart-total scenario, assembled
by two add-item requests (5.00 times 2 and 3.50 times 1); the implicit
find-or-create gives the cart the order id 7. -/
def demoCartDB : DB :=
  applyOps demoBase [Op.createOrderItem 1 1 2, Op.createOrderItem 1 2 1]

/-- Concrete fixture: the scenario cart after the customer placed it. -/
def demoPlacedDB : DB := applyOps demoCartDB [Op.placeOrder 1 7]

/-- Concrete fixture: the scenario order marked ready for pickup by its
restaurant. -/
def demoReadyDB : DB := applyOps demoPlacedDB [Op.markAsReadyForPickup 10 7]

/-- Concrete fixture: the scenario order accepted by contractor 1. -/
def demoInTransitDB : DB := applyOps demoReadyDB [Op.acceptOrder 1 7]

/-- Concrete fixture: the scenario order after contractor 3 rejected it
while it sat ready for pickup. -/
def demoRejectedDB : DB := applyOps demoReadyDB [Op.rejectOrder 3 7]

/-- Concrete fixture: the scenario order after its delivery was recorded. -/
def demoDeliveredDB : DB := applyOps demoInTransitDB [Op.markAsDelivered 7]

/-- Concrete fixture: the in-transit scenario order after a non-numeric
minutes-away payload cleared the estimate. -/
def demoClearedMinutesDB : DB :=
  applyOps demoInTransitDB [Op.setMinutesAway 2 7 none]

/-- Concrete fixture: a cart that was emptied again before checkout — the
single line item is edited down to quantity 0, which deletes the row and
leaves an unplaced order with no items. -/
def demoEmptyCartDB : DB :=
  applyOps demoBase [Op.createOrderItem 1 1 2, Op.editOrderItem 1 1 0]

/-- The order row of `demoPlacedDB`: placed at time 100 with the frozen
scenario total of 13.50. -/
def demoPlacedOrder : Order :=
  { newUnplacedOrder 7 1 10 with
    total_cost := some 1350
    status := OrderStatus.placed
    date_placed := some 100 }

/-- The order row of `demoReadyDB`: the placed scenario order marked ready
for pickup. -/
def demoReadyOrder : Order :=
  { demoPlacedOrder with status := OrderStatus.readyForPickup }

/-- The order row of `demoRejectedDB`: the ready scenario order with
contractor 3 in its rejection set. -/
def demoRejectedOrder : Order :=
  { demoReadyOrder with rejected_by := [3] }

/-- The order row of `demoInTransitDB`: the ready scenario order accepted
by contractor 1. -/
def demoInTransitOrder : Order :=
  { demoReadyOrder with
    accepted_by := some 1
    status := OrderStatus.inTransit }

/-- Concrete distance oracle for the spec's distance scenario, standing in
for the external geodesic library: all scenario points sit on the equator,
and the geodesic mileage of 0.05 degrees of longitude is about 3.45 miles
while 0.2 degrees is about 13.8 miles. -/
def demoGeoDist (p q : Coord) : ℚ :=
  if (p.2 - q.2).natAbs = 50000 then ⟨69, 20, by decide, by decide⟩
  else if (p.2 - q.2).natAbs = 200000 then ⟨69, 5, by decide, by decide⟩
  else 0

/-- Two order rows with the same primary key are the same row. -/
theorem unique_by_id {db : DB} (hnd : (db.orders.map Order.id).Nodup)
    {x y : Order} (hx : x ∈ db.orders) (hy : y ∈ db.orders)
    (h : x.id = y.id) : x = y :=
  List.inj_on_of_nodup_map hnd hx hy h

/-- Membership in the order table after a by-primary-key save. -/
theorem mem_saveOrder {db : DB} {u o1 : Order} :
    o1 ∈ (saveOrder db u).orders ↔
      ∃ x ∈ db.orders, o1 = if x.id == u.id then u else x := by
  simp only [saveOrder, List.mem_map]
  exact ⟨fun ⟨x, hx, h⟩ => ⟨x, hx, h.symm⟩, fun ⟨x, hx, h⟩ => ⟨x, hx, h.symm⟩⟩

/-- A by-primary-key save never makes a row disappear. -/
theorem saveOrder_persist {db : DB} (u : Order) {o : Order}
    (ho : o ∈ db.orders) :
    ∃ o1 ∈ (saveOrder db u).orders, o1.id = o.id := by
  refine ⟨if o.id == u.id then u else o, mem_saveOrder.mpr ⟨o, ho, rfl⟩, ?_⟩
  by_cases h : o.id = u.id
  · simp [h]
  · simp [h]

/-- A by-primary-key save keeps the list of primary keys unchanged. -/
theorem saveOrder_map_id (db : DB) (u : Order) :
    (saveOrder db u).orders.map Order.id = db.orders.map Order.id := by
  simp only [saveOrder, List.map_map]
  refine List.map_congr_left fun x hx => ?_
  by_cases h : x.id = u.id
  · simp [Function.comp, h]
  · simp [Function.comp, h]

/-- A `QuerySet.get` whose filter pins down the primary key returns the row
with that key. -/
theorem find?_id_eq {db : DB} (hnd : (db.orders.map Order.id).Nodup)
    {p : Order → Bool} {o : Order} (ho : o ∈ db.orders) (hp : p o = true)
    (hid : ∀ x ∈ db.orders, p x = true → x.id = o.id) :
    db.orders.find? p = some o := by
  cases hfind : db.orders.find? p with
  | none => exact absurd hp (List.find?_eq_none.mp hfind o ho)
  | some x =>
    have hpx := List.find?_some hfind
    have hxm := List.mem_of_find?_eq_some hfind
    exact congrArg some (unique_by_id hnd hxm ho (hid x hxm hpx))

/-- A row fetched from the table after a by-primary-key save under the
saved key is the saved row itself. -/
theorem eq_of_mem_saveOrder_id {db : DB} {u o1 : Order}
    (h1 : o1 ∈ (saveOrder db u).orders) (hid : o1.id = u.id) : o1 = u := by
  rcases mem_saveOrder.mp h1 with ⟨x, hx, rfl⟩
  by_cases h : x.id = u.id
  · simp [h]
  · rw [if_neg (by simpa using h)] at hid
    exact absurd hid h

/-- Shared success analysis of the place-order transition: on an order of
the requesting customer that is still unplaced, the operation freezes the
aggregated total, creates the Payment row, advances the status and stamps
the timestamp. -/
theorem placeOrder_success_spec
    {db : DB} (hwf : db.WF) {o : Order} (ho : o ∈ db.orders)
    {u : Nat} (hu : o.userId = u) (hst : o.status = OrderStatus.notPlacedYet) :
    ∃ db1, placeOrder db u o.id = some db1 ∧
      (∀ o1 ∈ db1.orders, o1.id = o.id →
        o1.total_cost = some (orderItemsTotal db o.id) ∧
        o1.status = OrderStatus.placed ∧
        o1.date_placed = some db.now) ∧
      db1.payments = db.payments ++
        [{ orderId := o.id, userId := u,
           amount_paid := orderItemsTotal db o.id }] := by
  have hfind : (db.orders.find? fun x =>
      x.id == o.id && x.userId == u &&
      decide (x.status = OrderStatus.notPlacedYet)) = some o := by
    refine find?_id_eq hwf.1 ho (by simp [hu, hst]) ?_
    intro x hx hpx
    simp only [Bool.and_eq_true, beq_iff_eq, decide_eq_true_eq] at hpx
    exact hpx.1.1
  have hcalc : o.calc_total_cost db = some (orderItemsTotal db o.id) := by
    simp [Order.calc_total_cost, hst]
  have heq : placeOrder db u o.id =
      some { saveOrder db { o with
               total_cost := some (orderItemsTotal db o.id),
               status := OrderStatus.placed,
               date_placed := some db.now } with
             payments := db.payments ++
               [{ orderId := o.id, userId := u,
                  amount_paid := orderItemsTotal db o.id }] } := by
    simp only [placeOrder, hfind, hcalc]
  refine ⟨_, heq, fun o1 h1 hid1 => ?_, rfl⟩
  rcases mem_saveOrder.mp h1 with ⟨x, hx, rfl⟩
  by_cases h : x.id = o.id
  · simp [h]
  · simp only [show (x.id == ({ o with
      total_cost := some (orderItemsTotal db o.id),
      status := OrderStatus.placed,
      date_placed := some db.now } : Order).id) = false by
        simpa using h, Bool.false_eq_true, if_false] at hid1 ⊢
    exact absurd hid1 h

/-- C1: placing an order that belongs to the requesting customer and is
still UNPLACED computes the total as the sum over all line items of
quantity times the current menu-item price (0 when there are no items),
freezes it into `total_cost`, creates the Payment row whose `amount_paid`
equals the frozen total, sets the status to PLACED and stamps the placement
timestamp with the current time. -/
theorem placeOrder_total_and_payment
    {db : DB} (hwf : db.WF) {o : Order} (ho : o ∈ db.orders)
    {u : Nat} (hu : o.userId = u) (hst : o.status = OrderStatus.notPlacedYet) :
    ∃ db1, placeOrder db u o.id = some db1 ∧
      (∀ o1 ∈ db1.orders, o1.id = o.id →
        o1.total_cost = some (orderItemsTotal db o.id) ∧
        o1.status = OrderStatus.placed ∧
        o1.date_placed = some db.now) ∧
      db1.payments = db.payments ++
        [{ orderId := o.id, userId := u,
           amount_paid := orderItemsTotal db o.id }] :=
  placeOrder_success_spec hwf ho hu hst

/-- Helper for the empty-cart case: an order with no line items aggregates
to a total of zero. -/
theorem orderItemsTotal_of_no_items {db : DB} {orderId : Nat}
    (h : ∀ it ∈ db.orderItems, it.orderId ≠ orderId) :
    orderItemsTotal db orderId = 0 := by
  have : db.orderItems.filter (fun it => it.orderId == orderId) = [] := by
    refine List.filter_eq_nil_iff.mpr fun it hit => ?_
    simpa using h it hit
  simp [orderItemsTotal, this]

/-- C9 (amended): the place-order operation has no minimum-item guard; an
UNPLACED order of the requesting customer with no line items is placed, with
`total_cost` frozen to 0 and a Payment of 0 created. -/
theorem placeOrder_allows_empty_cart
    {db : DB} (hwf : db.WF) {o : Order} (ho : o ∈ db.orders)
    {u : Nat} (hu : o.userId = u) (hst : o.status = OrderStatus.notPlacedYet)
    (hempty : ∀ it ∈ db.orderItems, it.orderId ≠ o.id) :
    ∃ db1, placeOrder db u o.id = some db1 ∧
      (∀ o1 ∈ db1.orders, o1.id = o.id →
        o1.status = OrderStatus.placed ∧ o1.total_cost = some 0) ∧
      db1.payments = db.payments ++
        [{ orderId := o.id, userId := u, amount_paid := 0 }] := by
  obtain ⟨db1, h1, h2, h3⟩ := placeOrder_success_spec hwf ho hu hst
  rw [orderItemsTotal_of_no_items hempty] at h2 h3
  exact ⟨db1, h1, fun o1 ho1 hid1 =>
    ⟨(h2 o1 ho1 hid1).2.1, (h2 o1 ho1 hid1).1⟩, h3⟩

/-- C9 (counterexample to the claim as stated): a cart that was emptied
before checkout is still placed by the payment submission — the concrete
emptied cart (order 7, no line items) transitions to PLACED with a frozen
total of 0 and a Payment of 0, rather than being refused. -/
theorem placeOrder_empty_cart_not_refused :
    ∃ db1, placeOrder demoEmptyCartDB 1 7 = some db1 ∧
      (∀ o1 ∈ db1.orders, o1.id = 7 →
        o1.status = OrderStatus.placed ∧ o1.total_cost = some 0) ∧
      db1.payments = [{ orderId := 7, userId := 1, amount_paid := 0 }] := by
  refine ⟨_, rfl, by decide, by decide⟩

/-- C2: the contractor accept operation succeeds exactly when the order has
status READY_FOR_PICKUP and no assigned contractor; on success it assigns
the requesting contractor and advances the status to IN_TRANSIT; on an
order that already has an assigned contractor it fails with the not-found
outcome of the guarded fetch and leaves the state unchanged. -/
theorem acceptOrder_exclusive
    {db : DB} (hwf : db.WF) (orderId : Nat) :
    (∀ c, (acceptOrder db c orderId).isSome ↔
      ∃ o ∈ db.orders, o.id = orderId ∧
        o.status = OrderStatus.readyForPickup ∧ o.accepted_by = none) ∧
    (∀ c db1, acceptOrder db c orderId = some db1 →
      ∀ o1 ∈ db1.orders, o1.id = orderId →
        o1.accepted_by = some c ∧ o1.status = OrderStatus.inTransit) ∧
    (∀ o ∈ db.orders, o.id = orderId → ∀ a, o.accepted_by = some a → ∀ c,
      acceptOrder db c orderId = none ∧
      applyOp db (Op.acceptOrder c orderId) = db) := by
  refine ⟨fun c => ?_, fun c db1 hsucc => ?_, fun o ho hid a hacc c => ?_⟩
  · cases hfind : db.orders.find? (fun x => x.id == orderId &&
        decide (x.status = OrderStatus.readyForPickup) &&
        x.accepted_by.isNone) with
    | none =>
      simp only [acceptOrder, hfind, Option.isSome_none,
        Bool.false_eq_true, false_iff]
      rintro ⟨o, ho, h1, h2, h3⟩
      have := List.find?_eq_none.mp hfind o ho
      simp [h1, h2, h3] at this
    | some x =>
      have hpx := List.find?_some hfind
      have hxm := List.mem_of_find?_eq_some hfind
      simp only [Bool.and_eq_true, beq_iff_eq, decide_eq_true_eq,
        Option.isNone_iff_eq_none] at hpx
      simp only [acceptOrder, hfind, Option.isSome_some, true_iff]
      exact ⟨x, hxm, hpx.1.1, hpx.1.2, hpx.2⟩
  · intro o1 h1 hid1
    revert hsucc
    cases hfind : db.orders.find? (fun x => x.id == orderId &&
        decide (x.status = OrderStatus.readyForPickup) &&
        x.accepted_by.isNone) with
    | none => intro hsucc; simp [acceptOrder, hfind] at hsucc
    | some w =>
      intro hsucc
      have hpw := List.find?_some hfind
      simp only [Bool.and_eq_true, beq_iff_eq, decide_eq_true_eq,
        Option.isNone_iff_eq_none] at hpw
      simp only [acceptOrder, hfind, Option.some_inj] at hsucc
      subst hsucc
      have ho1 : o1 = { w with
          accepted_by := some c
          status := OrderStatus.inTransit } :=
        eq_of_mem_saveOrder_id h1 (hid1.trans hpw.1.1.symm)
      rw [ho1]
      exact ⟨rfl, rfl⟩
  · have hnone : (db.orders.find? fun x => x.id == orderId &&
        decide (x.status = OrderStatus.readyForPickup) &&
        x.accepted_by.isNone) = none := by
      refine List.find?_eq_none.mpr fun x hx => ?_
      by_cases hxid : x.id = orderId
      · have hxo : x = o := unique_by_id hwf.1 hx ho (hxid.trans hid.symm)
        simp [hxo, hacc]
      · simp [hxid]
    exact ⟨by simp [acceptOrder, hnone],
      by simp [applyOp, acceptOrder, hnone]⟩

/-- C10: the accept operation does not consult the rejection set — a
contractor already in the rejection set of a READY_FOR_PICKUP order with no
assigned contractor still accepts it successfully, becoming the assigned
contractor with the order advanced to IN_TRANSIT. -/
theorem acceptOrder_ignores_rejections
    {db : DB} (hwf : db.WF) {o : Order} (ho : o ∈ db.orders)
    {c : Nat} (hrej : c ∈ o.rejected_by)
    (hst : o.status = OrderStatus.readyForPickup)
    (hacc : o.accepted_by = none) :
    ∃ db1, acceptOrder db c o.id = some db1 ∧
      ∀ o1 ∈ db1.orders, o1.id = o.id →
        o1.accepted_by = some c ∧ o1.status = OrderStatus.inTransit := by
  have hfind : (db.orders.find? fun x => x.id == o.id &&
      decide (x.status = OrderStatus.readyForPickup) &&
      x.accepted_by.isNone) = some o := by
    refine find?_id_eq hwf.1 ho (by simp [hst, hacc]) ?_
    intro x hx hpx
    simp only [Bool.and_eq_true, beq_iff_eq, decide_eq_true_eq] at hpx
    exact hpx.1.1
  refine ⟨saveOrder db { o with
      accepted_by := some c
      status := OrderStatus.inTransit },
    by simp only [acceptOrder, hfind], fun o1 h1 hid1 => ?_⟩
  have ho1 : o1 = { o with
      accepted_by := some c
      status := OrderStatus.inTransit } :=
    eq_of_mem_saveOrder_id h1 hid1
  rw [ho1]
  exact ⟨rfl, rfl⟩

/-- C7: mark-as-delivered succeeds exactly when the order is IN_TRANSIT, in
which case the status becomes DELIVERED and the delivery timestamp is
stamped with the current time; a second mark-as-delivered on the resulting
state — at any later time — is rejected and mutates nothing, so the stamped
timestamp is never overwritten. -/
theorem markAsDelivered_once
    (db : DB) (orderId : Nat) :
    ((markAsDelivered db orderId).isSome ↔
      ∃ o ∈ db.orders, o.id = orderId ∧
        o.status = OrderStatus.inTransit) ∧
    ∀ db1, markAsDelivered db orderId = some db1 →
      (∀ o1 ∈ db1.orders, o1.id = orderId →
        o1.status = OrderStatus.delivered ∧
        o1.date_delivered = some db.now) ∧
      ∀ n, markAsDelivered { db1 with now := n } orderId = none ∧
        applyOp { db1 with now := n } (Op.markAsDelivered orderId) =
          { db1 with now := n } := by
  have hdone : ∀ db1, markAsDelivered db orderId = some db1 →
      ∀ o1 ∈ db1.orders, o1.id = orderId →
        o1.status = OrderStatus.delivered ∧
        o1.date_delivered = some db.now := by
    intro db1 hsucc o1 h1 hid1
    revert hsucc
    cases hfind : db.orders.find? (fun x => x.id == orderId &&
        decide (x.status = OrderStatus.inTransit)) with
    | none => intro hsucc; simp [markAsDelivered, hfind] at hsucc
    | some w =>
      intro hsucc
      have hpw := List.find?_some hfind
      simp only [Bool.and_eq_true, beq_iff_eq, decide_eq_true_eq] at hpw
      simp only [markAsDelivered, hfind, Option.some_inj] at hsucc
      subst hsucc
      have ho1 : o1 = { w with
          status := OrderStatus.delivered
          date_delivered := some db.now } :=
        eq_of_mem_saveOrder_id h1 (hid1.trans hpw.1.symm)
      rw [ho1]
      exact ⟨rfl, rfl⟩
  refine ⟨?_, fun db1 hsucc => ⟨hdone db1 hsucc, fun n => ?_⟩⟩
  · cases hfind : db.orders.find? (fun x => x.id == orderId &&
        decide (x.status = OrderStatus.inTransit)) with
    | none =>
      simp only [markAsDelivered, hfind, Option.isSome_none,
        Bool.false_eq_true, false_iff]
      rintro ⟨o, ho, h1, h2⟩
      have := List.find?_eq_none.mp hfind o ho
      simp [h1, h2] at this
    | some x =>
      have hpx := List.find?_some hfind
      have hxm := List.mem_of_find?_eq_some hfind
      simp only [Bool.and_eq_true, beq_iff_eq, decide_eq_true_eq] at hpx
      simp only [markAsDelivered, hfind, Option.isSome_some, true_iff]
      exact ⟨x, hxm, hpx.1, hpx.2⟩
  · have hnone : (({ db1 with now := n } : DB).orders.find? fun x =>
        x.id == orderId && decide (x.status = OrderStatus.inTransit)) =
          none := by
      refine List.find?_eq_none.mpr fun x hx => ?_
      by_cases hxid : x.id = orderId
      · have := (hdone db1 hsucc x hx hxid).1
        simp [hxid, this]
      · simp [hxid]
    exact ⟨by simp [markAsDelivered, hnone],
      by simp [applyOp, markAsDelivered, hnone]⟩

/-- C8 (amended): update-minutes-away succeeds exactly when the order is
IN_TRANSIT — the requesting contractor plays no role in the guard, so
assignment to the requester is not required; on success the stored estimate
becomes the parsed payload, which is the supplied integer for a numeric
payload and null for a non-numeric one (no error is raised either way). -/
theorem setMinutesAway_only_checks_inTransit
    (db : DB) (c orderId : Nat) (minutesInput : Option Int) :
    ((setMinutesAway db c orderId minutesInput).isSome ↔
      ∃ o ∈ db.orders, o.id = orderId ∧
        o.status = OrderStatus.inTransit) ∧
    (∀ db1, setMinutesAway db c orderId minutesInput = some db1 →
      ∀ o1 ∈ db1.orders, o1.id = orderId →
        o1.minutes_away = minutesInput) ∧
    ∀ c2, setMinutesAway db c orderId minutesInput =
      setMinutesAway db c2 orderId minutesInput := by
  refine ⟨?_, fun db1 hsucc o1 h1 hid1 => ?_, fun c2 => rfl⟩
  · cases hfind : db.orders.find? (fun x => x.id == orderId &&
        decide (x.status = OrderStatus.inTransit)) with
    | none =>
      simp only [setMinutesAway, hfind, Option.isSome_none,
        Bool.false_eq_true, false_iff]
      rintro ⟨o, ho, h1, h2⟩
      have := List.find?_eq_none.mp hfind o ho
      simp [h1, h2] at this
    | some x =>
      have hpx := List.find?_some hfind
      have hxm := List.mem_of_find?_eq_some hfind
      simp only [Bool.and_eq_true, beq_iff_eq, decide_eq_true_eq] at hpx
      simp only [setMinutesAway, hfind, Option.isSome_some, true_iff]
      exact ⟨x, hxm, hpx.1, hpx.2⟩
  · revert hsucc
    cases hfind : db.orders.find? (fun x => x.id == orderId &&
        decide (x.status = OrderStatus.inTransit)) with
    | none => intro hsucc; simp [setMinutesAway, hfind] at hsucc
    | some w =>
      intro hsucc
      have hpw := List.find?_some hfind
      simp only [Bool.and_eq_true, beq_iff_eq, decide_eq_true_eq] at hpw
      simp only [setMinutesAway, hfind, Option.some_inj] at hsucc
      subst hsucc
      have ho1 : o1 = { w with minutes_away := minutesInput } :=
        eq_of_mem_saveOrder_id h1 (hid1.trans hpw.1.symm)
      rw [ho1]

/-- C8 (counterexample to the claim as stated): contractor 2 updates the
minutes-away estimate of the concrete in-transit order 7 even though the
order is assigned to contractor 1 — the operation succeeds and stores the
estimate, so success does not require assignment to the requesting
contractor. -/
theorem setMinutesAway_foreign_contractor_succeeds :
    ∃ db1, setMinutesAway demoInTransitDB 2 7 (some 9) = some db1 ∧
      ∀ o1 ∈ db1.orders, o1.id = 7 →
        o1.minutes_away = some 9 ∧ o1.accepted_by = some 1 := by
  refine ⟨_, rfl, by decide⟩

/-- C5: membership of the unassigned queue under a distance bound.  With the
order's restaurant and customer rows resolving to `r` and `cu`, the order is
listed exactly when its status is READY_FOR_PICKUP, the requesting
contractor has not rejected it, and both the contractor-to-restaurant and
contractor-to-customer distances are within the effective bound; the
effective bound is the supplied integer when it is numeric and at least 1,
and falls back to 5 for an absent, non-numeric or below-minimum value. -/
theorem unassignedDeliveryQueue_membership
    {db : DB} {o : Order} (ho : o ∈ db.orders)
    {r : Restaurant}
    (hr : (db.restaurants.find? fun x => x.id == o.restaurantId) = some r)
    {cu : CustomerInfo}
    (hcu : (db.customers.find? fun x => x.userId == o.userId) = some cu)
    (dist : Coord → Coord → ℚ) (c : DeliveryContractorInfo)
    (raw : Option (Option Int)) :
    (o ∈ unassignedDeliveryQueue db dist c (effectiveMaxDistance raw) ↔
      o.status = OrderStatus.readyForPickup ∧
      c.id ∉ o.rejected_by ∧
      dist (r.location_x_coordinate, r.location_y_coordinate)
        c.coordinates ≤ ((effectiveMaxDistance raw : Int) : ℚ) ∧
      dist (cu.location_x_coordinate, cu.location_y_coordinate)
        c.coordinates ≤ ((effectiveMaxDistance raw : Int) : ℚ)) ∧
    effectiveMaxDistance none = 5 ∧
    effectiveMaxDistance (some none) = 5 ∧
    (∀ n : Int, 1 ≤ n → effectiveMaxDistance (some (some n)) = n) ∧
    (∀ n : Int, n < 1 → effectiveMaxDistance (some (some n)) = 5) := by
  refine ⟨?_, rfl, rfl, fun n hn => by simp [effectiveMaxDistance, hn],
    fun n hn => by simp [effectiveMaxDistance, not_le.mpr hn]⟩
  rw [unassignedDeliveryQueue, List.mem_filter, queueIncludes, hr, hcu]
  simp [ho, List.contains_iff_exists_mem_beq, and_assoc]

/-- C6 (the stale enum in models.py): the `OrderStatus` enum models.py
declares has the four database values Np/Pl/Ip/De, so it is missing the
READY_FOR_PICKUP ("Rp") and IN_TRANSIT ("It") members that views.py
references and `OrdersWithStatusForm` in forms.py offers, and its
IN_PROGRESS ("Ip") member is used by no lifecycle code; the five-state
chain of the lifecycle does not match the declared enum. -/
theorem modelsPy_enum_misses_lifecycle_states :
    OrderStatus.readyForPickup.value ∉ modelsPyOrderStatusValues ∧
    OrderStatus.inTransit.value ∉ modelsPyOrderStatusValues ∧
    ¬ (∀ v ∈ ordersWithStatusFormChoices, v ∈ modelsPyOrderStatusValues) ∧
    "Ip" ∈ modelsPyOrderStatusValues ∧
    "Ip" ∉ [OrderStatus.notPlacedYet, OrderStatus.placed,
      OrderStatus.readyForPickup, OrderStatus.inTransit,
      OrderStatus.delivered].map OrderStatus.value ∧
    modelsPyOrderStatusValues.length = 4 := by
  decide

/-- The rejecting contractor is in the rejection set after a rejection. -/
theorem addRejection_mem_self (contractorId : Nat) (l : List Nat) :
    contractorId ∈ addRejection contractorId l := by
  unfold addRejection
  split
  · assumption
  · exact List.mem_cons_self ..

/-- Recording a rejection never removes anyone from the rejection set. -/
theorem mem_addRejection {contractorId x : Nat} {l : List Nat} (h : x ∈ l) :
    x ∈ addRejection contractorId l := by
  unfold addRejection
  split
  · exact h
  · exact List.mem_cons_of_mem _ h

/-- A rejection by one contractor does not change whether any other
contractor is in the rejection set. -/
theorem addRejection_contains {contractorId x : Nat} (l : List Nat)
    (hne : x ≠ contractorId) :
    (addRejection contractorId l).contains x = l.contains x := by
  unfold addRejection
  split
  · rfl
  · simp [List.contains_cons, hne]

/-- Effect classification of one request on the order table: the table and
its fresh-id counter are untouched, or one fetched row is replaced under
its own primary key by an update that never shrinks the rejection set and
never rewrites the frozen total of a placed row, or a fresh unplaced row is
appended under the fresh id. -/
theorem applyOp_orders_shape (db : DB) (op : Op) :
    ((applyOp db op).orders = db.orders ∧
      (applyOp db op).nextOrderId = db.nextOrderId) ∨
    (∃ w u, w ∈ db.orders ∧ u.id = w.id ∧
      (applyOp db op).orders = (saveOrder db u).orders ∧
      (applyOp db op).nextOrderId = db.nextOrderId ∧
      (∀ x ∈ w.rejected_by, x ∈ u.rejected_by) ∧
      (w.status = OrderStatus.notPlacedYet ∨
        (u.total_cost = w.total_cost ∧
         u.status ≠ OrderStatus.notPlacedYet)) ∧
      ((u.status ≠ OrderStatus.notPlacedYet ∧ u.total_cost ≠ none) ∨
       (u.status = w.status ∧ u.total_cost = w.total_cost) ∨
       (u.status ≠ OrderStatus.notPlacedYet ∧
        u.total_cost = w.total_cost ∧
        w.status ≠ OrderStatus.notPlacedYet))) ∨
    (∃ uid rid, (applyOp db op).orders =
        db.orders ++ [newUnplacedOrder db.nextOrderId uid rid] ∧
      (applyOp db op).nextOrderId = db.nextOrderId + 1) := by
  cases op with
  | createOrderItem u mi q =>
    by_cases hq : (q == 0) = true
    · exact Or.inl (by simp [applyOp, createOrderItem, hq])
    · cases hmi : db.menuItems.find? fun x => x.id == mi with
      | none => exact Or.inl (by simp [applyOp, createOrderItem, hq, hmi])
      | some m =>
        cases hord : db.orders.find? fun o =>
            o.userId == u && o.restaurantId == m.restaurantId &&
            decide (o.status = OrderStatus.notPlacedYet) with
        | some o =>
          by_cases hdup : (db.orderItems.any fun it =>
              it.orderId == o.id && it.menuItemId == mi) = true
          · exact Or.inl (by
              simp [applyOp, createOrderItem, hq, hmi, hord, hdup])
          · exact Or.inl (by
              simp [applyOp, createOrderItem, hq, hmi, hord, hdup])
        | none =>
          by_cases hdup : (db.orderItems.any fun it =>
              it.orderId == db.nextOrderId && it.menuItemId == mi) = true
          · exact Or.inl (by
              simp [applyOp, createOrderItem, hq, hmi, hord, hdup])
          · refine Or.inr (Or.inr ⟨u, m.restaurantId, ?_, ?_⟩) <;>
              simp [applyOp, createOrderItem, hq, hmi, hord, hdup]
  | editOrderItem u it q =>
    cases hit : db.orderItems.find? fun x => x.id == it with
    | none => exact Or.inl (by simp [applyOp, editOrderItem, hit])
    | some item =>
      cases hord : db.orders.find? fun o =>
          o.id == item.orderId && o.userId == u &&
          decide (o.status = OrderStatus.notPlacedYet) with
      | none => exact Or.inl (by simp [applyOp, editOrderItem, hit, hord])
      | some o =>
        by_cases hz : (q == 0) = true
        · exact Or.inl (by simp [applyOp, editOrderItem, hit, hord, hz])
        · exact Or.inl (by simp [applyOp, editOrderItem, hit, hord, hz])
  | placeOrder u oid =>
    cases hfind : db.orders.find? fun o =>
        o.id == oid && o.userId == u &&
        decide (o.status = OrderStatus.notPlacedYet) with
    | none => exact Or.inl (by simp [applyOp, placeOrder, hfind])
    | some w =>
      have hpw := List.find?_some hfind
      have hwm := List.mem_of_find?_eq_some hfind
      simp only [Bool.and_eq_true, beq_iff_eq, decide_eq_true_eq] at hpw
      have hcalc : w.calc_total_cost db = some (orderItemsTotal db w.id) := by
        simp [Order.calc_total_cost, hpw.2]
      refine Or.inr (Or.inl ⟨w, { w with
        total_cost := some (orderItemsTotal db w.id)
        status := OrderStatus.placed
        date_placed := some db.now }, hwm, rfl, ?_, ?_, ?_, ?_, ?_⟩)
      · simp [applyOp, placeOrder, hfind, hcalc, saveOrder]
      · simp [applyOp, placeOrder, hfind, hcalc, saveOrder]
      · exact fun x hx => hx
      · exact Or.inl hpw.2
      · exact Or.inl ⟨by simp, by simp⟩
  | markAsReadyForPickup rid oid =>
    cases hfind : db.orders.find? fun o =>
        o.id == oid && o.restaurantId == rid &&
        decide (o.status = OrderStatus.placed) with
    | none => exact Or.inl (by simp [applyOp, markAsReadyForPickup, hfind])
    | some w =>
      have hpw := List.find?_some hfind
      have hwm := List.mem_of_find?_eq_some hfind
      simp only [Bool.and_eq_true, beq_iff_eq, decide_eq_true_eq] at hpw
      refine Or.inr (Or.inl ⟨w,
        { w with status := OrderStatus.readyForPickup }, hwm, rfl, ?_, ?_,
        fun x hx => hx, Or.inr ⟨rfl, by simp⟩,
        Or.inr (Or.inr ⟨by simp, rfl, by simp [hpw.2]⟩)⟩) <;>
        simp [applyOp, markAsReadyForPickup, hfind, saveOrder]
  | acceptOrder c oid =>
    cases hfind : db.orders.find? fun o =>
        o.id == oid && decide (o.status = OrderStatus.readyForPickup) &&
        o.accepted_by.isNone with
    | none => exact Or.inl (by simp [applyOp, acceptOrder, hfind])
    | some w =>
      have hpw := List.find?_some hfind
      have hwm := List.mem_of_find?_eq_some hfind
      simp only [Bool.and_eq_true, beq_iff_eq, decide_eq_true_eq] at hpw
      refine Or.inr (Or.inl ⟨w, { w with
        accepted_by := some c
        status := OrderStatus.inTransit }, hwm, rfl, ?_, ?_,
        fun x hx => hx, Or.inr ⟨rfl, by simp⟩,
        Or.inr (Or.inr ⟨by simp, rfl, by simp [hpw.1.2]⟩)⟩) <;>
        simp [applyOp, acceptOrder, hfind, saveOrder]
  | rejectOrder c oid =>
    cases hfind : db.orders.find? fun o =>
        o.id == oid && !(decide (o.accepted_by = some c)) with
    | none => exact Or.inl (by simp [applyOp, rejectOrder, hfind])
    | some w =>
      have hwm := List.mem_of_find?_eq_some hfind
      refine Or.inr (Or.inl ⟨w,
        { w with rejected_by := addRejection c w.rejected_by }, hwm, rfl,
        ?_, ?_, fun x hx => mem_addRejection hx, ?_,
        Or.inr (Or.inl ⟨rfl, rfl⟩)⟩)
      · simp [applyOp, rejectOrder, hfind, saveOrder]
      · simp [applyOp, rejectOrder, hfind, saveOrder]
      · by_cases hnp : w.status = OrderStatus.notPlacedYet
        · exact Or.inl hnp
        · exact Or.inr ⟨rfl, hnp⟩
  | markAsDelivered oid =>
    cases hfind : db.orders.find? fun o =>
        o.id == oid && decide (o.status = OrderStatus.inTransit) with
    | none => exact Or.inl (by simp [applyOp, markAsDelivered, hfind])
    | some w =>
      have hpw := List.find?_some hfind
      have hwm := List.mem_of_find?_eq_some hfind
      simp only [Bool.and_eq_true, beq_iff_eq, decide_eq_true_eq] at hpw
      refine Or.inr (Or.inl ⟨w, { w with
        status := OrderStatus.delivered
        date_delivered := some db.now }, hwm, rfl, ?_, ?_,
        fun x hx => hx, Or.inr ⟨rfl, by simp⟩,
        Or.inr (Or.inr ⟨by simp, rfl, by simp [hpw.2]⟩)⟩) <;>
        simp [applyOp, markAsDelivered, hfind, saveOrder]
  | setMinutesAway c oid m =>
    cases hfind : db.orders.find? fun o =>
        o.id == oid && decide (o.status = OrderStatus.inTransit) with
    | none => exact Or.inl (by simp [applyOp, setMinutesAway, hfind])
    | some w =>
      have hpw := List.find?_some hfind
      have hwm := List.mem_of_find?_eq_some hfind
      simp only [Bool.and_eq_true, beq_iff_eq, decide_eq_true_eq] at hpw
      refine Or.inr (Or.inl ⟨w, { w with minutes_away := m }, hwm, rfl,
        ?_, ?_, fun x hx => hx,
        Or.inr ⟨rfl, by simp [hpw.2]⟩, Or.inr (Or.inl ⟨rfl, rfl⟩)⟩) <;>
        simp [applyOp, setMinutesAway, hfind, saveOrder]
  | createMenuItem rid p => exact Or.inl ⟨rfl, rfl⟩
  | setMenuItemPrice mi p =>
    cases hmi : db.menuItems.find? fun x => x.id == mi with
    | none => exact Or.inl (by simp [applyOp, setMenuItemPrice, hmi])
    | some m => exact Or.inl (by simp [applyOp, setMenuItemPrice, hmi])
  | tick => exact Or.inl ⟨rfl, rfl⟩

/-- Well-formedness of the order table survives every request. -/
theorem applyOp_WF {db : DB} (hwf : db.WF) (op : Op) : (applyOp db op).WF := by
  rcases applyOp_orders_shape db op with ⟨ho, hn⟩ |
    ⟨w, u, hw, hid, ho, hn, -, -, -⟩ | ⟨uid, rid, ho, hn⟩
  · exact ⟨ho ▸ hwf.1, fun o h1 => hn ▸ hwf.2 o (ho ▸ h1)⟩
  · refine ⟨by rw [ho, saveOrder_map_id]; exact hwf.1, fun o1 h1 => ?_⟩
    rw [ho] at h1
    rcases mem_saveOrder.mp h1 with ⟨x, hx, rfl⟩
    rw [hn]
    by_cases h : x.id = u.id
    · simpa [h, hid] using hwf.2 w hw
    · simpa [h] using hwf.2 x hx
  · constructor
    · rw [ho, List.map_append, List.nodup_append]
      refine ⟨hwf.1, List.nodup_singleton _, fun a ha hb => ?_⟩
      rcases List.mem_map.mp ha with ⟨o, hom, rfl⟩
      simp only [List.map_cons, List.map_nil, List.mem_singleton,
        newUnplacedOrder] at hb
      exact absurd hb (Nat.ne_of_lt (hwf.2 o hom))
    · intro o1 h1
      rw [ho] at h1
      rw [hn]
      rcases List.mem_append.mp h1 with h | h
      · exact Nat.lt_succ_of_lt (hwf.2 o1 h)
      · simp only [List.mem_singleton] at h
        rw [h]
        exact Nat.lt_succ_self _

/-- The null-total invariant survives every request. -/
theorem applyOp_statusTotalInv {db : DB} (hinv : StatusTotalInv db)
    (op : Op) : StatusTotalInv (applyOp db op) := by
  rcases applyOp_orders_shape db op with ⟨ho, -⟩ |
    ⟨w, u, hw, hid, ho, -, -, -, hiv⟩ | ⟨uid, rid, ho, -⟩
  · intro o1 h1
    rw [ho] at h1
    exact hinv o1 h1
  · intro o1 h1
    rw [ho] at h1
    rcases mem_saveOrder.mp h1 with ⟨x, hx, rfl⟩
    by_cases h : x.id = u.id
    · rw [if_pos (by simpa using h)]
      rcases hiv with ⟨hs, ht⟩ | ⟨hs, ht⟩ | ⟨hs, ht, hws⟩
      · exact ⟨fun hh => absurd hh hs, fun hh => absurd hh ht⟩
      · rw [hs, ht]
        exact hinv w hw
      · refine ⟨fun hh => absurd hh hs, fun hh => ?_⟩
        exact absurd ((hinv w hw).mpr (ht ▸ hh)) hws
    · rw [if_neg (by simpa using h)]
      exact hinv x hx
  · intro o1 h1
    rw [ho] at h1
    rcases List.mem_append.mp h1 with h | h
    · exact hinv o1 h
    · simp only [List.mem_singleton] at h
      rw [h]
      simp [newUnplacedOrder]

/-- No request makes an order row disappear. -/
theorem applyOp_persist {db : DB} (op : Op) {o : Order}
    (ho : o ∈ db.orders) :
    ∃ o1 ∈ (applyOp db op).orders, o1.id = o.id := by
  rcases applyOp_orders_shape db op with ⟨h2, -⟩ |
    ⟨w, u, hw, hid, h2, -, -, -, -⟩ | ⟨uid, rid, h2, -⟩
  · exact ⟨o, h2 ▸ ho, rfl⟩
  · obtain ⟨o1, h1, hido⟩ := saveOrder_persist u ho
    exact ⟨o1, h2 ▸ h1, hido⟩
  · exact ⟨o, h2 ▸ List.mem_append_left _ ho, rfl⟩

/-- A single request never rewrites the total or reverts the status of an
order that has already left the UNPLACED state. -/
theorem applyOp_frozen {db : DB} (hwf : db.WF) (op : Op) {o o1 : Order}
    (ho : o ∈ db.orders) (hst : o.status ≠ OrderStatus.notPlacedYet)
    (h1 : o1 ∈ (applyOp db op).orders) (hid1 : o1.id = o.id) :
    o1.total_cost = o.total_cost ∧
    o1.status ≠ OrderStatus.notPlacedYet := by
  rcases applyOp_orders_shape db op with ⟨h2, -⟩ |
    ⟨w, u, hw, hid, h2, -, -, hfr, -⟩ | ⟨uid, rid, h2, -⟩
  · rw [h2] at h1
    rw [unique_by_id hwf.1 h1 ho hid1]
    exact ⟨rfl, hst⟩
  · rw [h2] at h1
    rcases mem_saveOrder.mp h1 with ⟨x, hx, rfl⟩
    by_cases h : x.id = u.id
    · rw [if_pos (by simpa using h)] at hid1 ⊢
      have hwo : w = o := unique_by_id hwf.1 hw ho (hid ▸ hid1)
      rcases hfr with hnp | ⟨ht, hs⟩
      · exact absurd (hwo ▸ hnp) hst
      · exact ⟨by rw [ht, hwo], hs⟩
    · rw [if_neg (by simpa using h)] at hid1 ⊢
      rw [unique_by_id hwf.1 hx ho hid1]
      exact ⟨rfl, hst⟩
  · rw [h2] at h1
    rcases List.mem_append.mp h1 with h | h
    · rw [unique_by_id hwf.1 h ho hid1]
      exact ⟨rfl, hst⟩
    · simp only [List.mem_singleton] at h
      rw [h] at hid1
      exact absurd hid1.symm (Nat.ne_of_lt (hwf.2 o ho))

/-- A recorded rejection survives every single request. -/
theorem applyOp_rejectionSticky {db : DB} {contractorId orderId : Nat}
    (h : RejectionSticky db contractorId orderId) (op : Op) :
    RejectionSticky (applyOp db op) contractorId orderId := by
  rcases applyOp_orders_shape db op with ⟨h2, hn⟩ |
    ⟨w, u, hw, hid, h2, hn, hrej, -, -⟩ | ⟨uid, rid, h2, hn⟩
  · exact ⟨hn ▸ h.1, fun o ho => h.2 o (h2 ▸ ho)⟩
  · refine ⟨hn ▸ h.1, fun o1 h1 hido => ?_⟩
    rw [h2] at h1
    rcases mem_saveOrder.mp h1 with ⟨x, hx, rfl⟩
    by_cases hxi : x.id = u.id
    · rw [if_pos (by simpa using hxi)] at hido ⊢
      exact hrej _ (h.2 w hw (hid ▸ hido))
    · rw [if_neg (by simpa using hxi)] at hido ⊢
      exact h.2 x hx hido
  · refine ⟨hn ▸ Nat.lt_succ_of_lt h.1, fun o1 h1 hido => ?_⟩
    rw [h2] at h1
    rcases List.mem_append.mp h1 with hm | hm
    · exact h.2 o1 hm hido
    · simp only [List.mem_singleton] at hm
      rw [hm] at hido
      exact absurd hido.symm (Nat.ne_of_lt h.1)

/-- Well-formedness survives any request sequence. -/
theorem applyOps_WF {db : DB} (hwf : db.WF) (ops : List Op) :
    (applyOps db ops).WF := by
  induction ops generalizing db with
  | nil => exact hwf
  | cons op ops ih => exact ih (applyOp_WF hwf op)

/-- The null-total invariant survives any request sequence. -/
theorem applyOps_statusTotalInv {db : DB} (hinv : StatusTotalInv db)
    (ops : List Op) : StatusTotalInv (applyOps db ops) := by
  induction ops generalizing db with
  | nil => exact hinv
  | cons op ops ih => exact ih (applyOp_statusTotalInv hinv op)

/-- A recorded rejection survives any request sequence. -/
theorem applyOps_rejectionSticky {db : DB} {contractorId orderId : Nat}
    (h : RejectionSticky db contractorId orderId) (ops : List Op) :
    RejectionSticky (applyOps db ops) contractorId orderId := by
  induction ops generalizing db with
  | nil => exact h
  | cons op ops ih => exact ih (applyOp_rejectionSticky h op)

/-- Once an order has left the UNPLACED state, its frozen total survives
any request sequence unchanged (and the order never returns to UNPLACED). -/
theorem applyOps_frozen {db : DB} (hwf : db.WF) (ops : List Op) {o : Order}
    (ho : o ∈ db.orders) (hst : o.status ≠ OrderStatus.notPlacedYet) :
    ∀ o1 ∈ (applyOps db ops).orders, o1.id = o.id →
      o1.total_cost = o.total_cost ∧
      o1.status ≠ OrderStatus.notPlacedYet := by
  induction ops generalizing db o with
  | nil =>
    intro o1 h1 hid1
    rw [unique_by_id hwf.1 h1 ho hid1]
    exact ⟨rfl, hst⟩
  | cons op ops ih =>
    intro o1 h1 hid1
    obtain ⟨o2, h2, hid2⟩ := applyOp_persist op ho
    obtain ⟨ht2, hs2⟩ := applyOp_frozen hwf op ho hst h2 hid2
    obtain ⟨ht1, hs1⟩ := ih (applyOp_WF hwf op) h2 hs2 o1 h1
      (hid1.trans hid2.symm)
    exact ⟨ht1.trans ht2, hs1⟩

/-- A state with no order activity is well-formed. -/
theorem initial_WF {db : DB} (h : db.Initial) : db.WF := by
  refine ⟨by rw [h.1]; simp, fun o ho => ?_⟩
  rw [h.1] at ho
  cases ho

/-- A state with no order activity satisfies the null-total invariant. -/
theorem initial_statusTotalInv {db : DB} (h : db.Initial) :
    StatusTotalInv db := by
  intro o ho
  rw [h.1] at ho
  cases ho

/-- C4: in every reachable state, `total_cost` is null exactly while the
order is UNPLACED (so it is non-null in every other status), and once an
order has left UNPLACED its `total_cost` is never changed by any later
request sequence — menu-price edits included, since `Op.setMenuItemPrice`
is among the quantified requests. -/
theorem total_cost_null_iff_unplaced_then_frozen
    {db : DB} (hreach : Reachable db) :
    (∀ o ∈ db.orders,
      o.status = OrderStatus.notPlacedYet ↔ o.total_cost = none) ∧
    ∀ o ∈ db.orders, o.status ≠ OrderStatus.notPlacedYet →
      ∀ ops, ∀ o1 ∈ (applyOps db ops).orders, o1.id = o.id →
        o1.total_cost = o.total_cost := by
  obtain ⟨db0, ops0, hinit, rfl⟩ := hreach
  refine ⟨applyOps_statusTotalInv (initial_statusTotalInv hinit) ops0,
    fun o ho hst ops o1 h1 hid1 => ?_⟩
  exact (applyOps_frozen (applyOps_WF (initial_WF hinit) ops0) ops ho hst
    o1 h1 hid1).1

/-- Filtering a pointwise-rewritten table gives the same keys when the
rewrite preserves the filter verdict and the key of every row. -/
theorem filter_map_key {α β : Type} (f : α → α) (key : α → β)
    (p q : α → Bool) (l : List α)
    (h : ∀ x ∈ l, p (f x) = q x ∧ key (f x) = key x) :
    ((l.map f).filter p).map key = (l.filter q).map key := by
  induction l with
  | nil => rfl
  | cons a l ih =>
    obtain ⟨h1, h2⟩ := h a (List.mem_cons_self a l)
    have ih2 := ih fun x hx => h x (List.mem_cons_of_mem a hx)
    rw [List.map_cons, List.filter_cons, List.filter_cons, h1]
    cases hq : q a
    · simpa [hq] using ih2
    · simp [hq, h2, ih2]

/-- The queue predicate only reads the catalogue tables of the state, so a
save on the order table does not change it. -/
theorem queueIncludes_saveOrder (db : DB) (u : Order)
    (dist : Coord → Coord → ℚ) (c : DeliveryContractorInfo)
    (maxDistance : Int) (o : Order) :
    queueIncludes (saveOrder db u) dist c maxDistance o =
      queueIncludes db dist c maxDistance o := rfl

/-- A sticky rejection keeps the order out of that contractor's unassigned
queue. -/
theorem not_in_queue_of_sticky {db : DB} {contractorId orderId : Nat}
    (h : RejectionSticky db contractorId orderId)
    (dist : Coord → Coord → ℚ) {cr : DeliveryContractorInfo}
    (hcr : cr.id = contractorId) (maxDistance : Int) :
    orderId ∉
      (unassignedDeliveryQueue db dist cr maxDistance).map Order.id := by
  intro hmem
  rcases List.mem_map.mp hmem with ⟨o, homem, hoid⟩
  rcases List.mem_filter.mp homem with ⟨ho, hinc⟩
  have hrej := h.2 o ho hoid
  rw [queueIncludes] at hinc
  simp only [Bool.and_eq_true, Bool.not_eq_eq_eq_not, Bool.not_true,
    decide_eq_true_eq] at hinc
  have : o.rejected_by.contains cr.id = true := by
    rw [hcr]
    exact List.elem_eq_true_of_mem hrej
  rw [this] at hinc
  exact absurd hinc.1.2 (by simp)

/-- C3: once a contractor's rejection of an order is recorded, the order's
status is untouched, every other contractor's unassigned queue lists
exactly the same order ids as before, and for any sequence of subsequent
requests the rejected order id never appears in the rejecting contractor's
unassigned queue again. -/
theorem rejection_permanent
    {db : DB} (hwf : db.WF) {contractorId orderId : Nat} {db1 : DB}
    (hsucc : rejectOrder db contractorId orderId = some db1) :
    (∀ o ∈ db.orders, o.id = orderId → ∀ o1 ∈ db1.orders, o1.id = orderId →
      o1.status = o.status) ∧
    (∀ (dist : Coord → Coord → ℚ) (c2 : DeliveryContractorInfo)
        (maxDistance : Int), c2.id ≠ contractorId →
      (unassignedDeliveryQueue db1 dist c2 maxDistance).map Order.id =
        (unassignedDeliveryQueue db dist c2 maxDistance).map Order.id) ∧
    (∀ (ops : List Op) (dist : Coord → Coord → ℚ)
        (cr : DeliveryContractorInfo) (maxDistance : Int),
      cr.id = contractorId →
      orderId ∉ (unassignedDeliveryQueue (applyOps db1 ops) dist cr
        maxDistance).map Order.id) := by
  revert hsucc
  cases hfind : db.orders.find? (fun x => x.id == orderId &&
      !(decide (x.accepted_by = some contractorId))) with
  | none => intro hsucc; simp [rejectOrder, hfind] at hsucc
  | some w =>
    intro hsucc
    have hpw := List.find?_some hfind
    have hwm := List.mem_of_find?_eq_some hfind
    simp only [Bool.and_eq_true, beq_iff_eq, Bool.not_eq_eq_eq_not,
      Bool.not_true, decide_eq_false_iff_not] at hpw
    simp only [rejectOrder, hfind, Option.some_inj] at hsucc
    subst hsucc
    have hsticky : RejectionSticky
        (saveOrder db { w with
          rejected_by := addRejection contractorId w.rejected_by })
        contractorId orderId := by
      refine ⟨hpw.1 ▸ hwf.2 w hwm, fun o ho hido => ?_⟩
      have ho1 : o = { w with
          rejected_by := addRejection contractorId w.rejected_by } :=
        eq_of_mem_saveOrder_id ho (by rw [hido, hpw.1])
      rw [ho1]
      exact addRejection_mem_self contractorId w.rejected_by
    refine ⟨?_, ?_, ?_⟩
    · intro o ho hido o1 h1 hid1
      have ho1 : o1 = { w with
          rejected_by := addRejection contractorId w.rejected_by } :=
        eq_of_mem_saveOrder_id h1 (by rw [hid1, hpw.1])
      have hwo : w = o := unique_by_id hwf.1 hwm ho (hpw.1.trans hido.symm)
      rw [ho1, ← hwo]
    · intro dist c2 maxDistance hne
      rw [unassignedDeliveryQueue, unassignedDeliveryQueue]
      have horders : (saveOrder db { w with
          rejected_by := addRejection contractorId w.rejected_by }).orders =
          db.orders.map fun x => if x.id == w.id then { w with
            rejected_by := addRejection contractorId w.rejected_by }
          else x := rfl
      rw [horders]
      refine filter_map_key _ _ _ _ _ fun x hx => ⟨?_, ?_⟩
      · by_cases hxi : x.id = w.id
        · rw [if_pos (by simpa using hxi)]
          have hxw : x = w := unique_by_id hwf.1 hx hwm hxi
          rw [queueIncludes_saveOrder, hxw, queueIncludes, queueIncludes]
          simp only [addRejection_contains w.rejected_by hne]
        · rw [if_neg (by simpa using hxi), queueIncludes_saveOrder]
      · by_cases hxi : x.id = w.id
        · rw [if_pos (by simpa using hxi)]
          exact hxi.symm
        · rw [if_neg (by simpa using hxi)]
    · intro ops dist cr maxDistance hcr
      exact not_in_queue_of_sticky
        (applyOps_rejectionSticky hsticky ops) dist hcr maxDistance

/-- Witness for C1: the scenario cart (5.00 times 2 plus 3.50 times 1) is
placed with a frozen total of 13.50 and a Payment of 13.50. -/
theorem placeOrder_total_and_payment_witness :
    demoCartDB.WF ∧
    (∃ db1, placeOrder demoCartDB 1 7 = some db1 ∧
      (∀ o1 ∈ db1.orders, o1.id = 7 → o1.total_cost = some 1350) ∧
      db1.payments = [{ orderId := 7, userId := 1, amount_paid := 1350 }]) := by
  have hwf : demoCartDB.WF := by decide
  obtain ⟨db1, h1, h2, h3⟩ := @placeOrder_total_and_payment demoCartDB hwf
    (newUnplacedOrder 7 1 10) (by decide) 1 rfl rfl
  have h1a : placeOrder demoCartDB 1 7 = some db1 := h1
  have htot : orderItemsTotal demoCartDB 7 = 1350 := by decide
  refine ⟨hwf, db1, h1a, fun o1 ho1 hid1 => ?_, ?_⟩
  · rw [(h2 o1 ho1 hid1).1]
    exact congrArg some htot
  · have h3a : db1.payments = demoCartDB.payments ++
        [{ orderId := 7, userId := 1,
           amount_paid := orderItemsTotal demoCartDB 7 }] := h3
    rw [h3a, htot]
    decide

/-- Witness for C2: contractor 3 accepts the unassigned ready scenario
order, while contractor 2's accept of the already-taken order fails. -/
theorem acceptOrder_exclusive_witness :
    (acceptOrder demoReadyDB 3 7).isSome = true ∧
    acceptOrder demoInTransitDB 2 7 = none := by
  have h := @acceptOrder_exclusive demoReadyDB (by decide) 7
  have h2 := @acceptOrder_exclusive demoInTransitDB (by decide) 7
  exact ⟨(h.1 3).mpr (by decide),
    (h2.2.2 demoInTransitOrder (by decide) (by decide) 1 (by decide) 2).1⟩

/-- Witness for C3: after contractor 3 rejects the ready scenario order,
the order id 7 stays out of contractor 3's queue after a further request,
while a different contractor's queue lists the same ids as before. -/
theorem rejection_permanent_witness :
    (7 ∉ (unassignedDeliveryQueue (applyOps demoRejectedDB [Op.tick])
      demoGeoDist demoContractor 20).map Order.id) ∧
    (unassignedDeliveryQueue demoRejectedDB demoGeoDist
        { id := 4, location_x_coordinate := 0, location_y_coordinate := 0 }
        20).map Order.id =
      (unassignedDeliveryQueue demoReadyDB demoGeoDist
        { id := 4, location_x_coordinate := 0, location_y_coordinate := 0 }
        20).map Order.id := by
  have h := @rejection_permanent demoReadyDB (by decide) 3 7
    demoRejectedDB (by decide)
  exact ⟨h.2.2 [Op.tick] demoGeoDist demoContractor 20 rfl,
    h.2.1 demoGeoDist
      { id := 4, location_x_coordinate := 0, location_y_coordinate := 0 }
      20 (by decide)⟩

/-- Witness for C4: the reachable placed scenario state satisfies the
null-total invariant, and a later menu-price edit leaves the frozen 13.50
untouched. -/
theorem total_cost_null_iff_unplaced_then_frozen_witness :
    (∀ o ∈ demoPlacedDB.orders,
      o.status = OrderStatus.notPlacedYet ↔ o.total_cost = none) ∧
    ∀ o1 ∈ (applyOps demoPlacedDB [Op.setMenuItemPrice 1 99900]).orders,
      o1.id = 7 → o1.total_cost = some 1350 := by
  have h := @total_cost_null_iff_unplaced_then_frozen demoPlacedDB
    ⟨demoBase, [Op.createOrderItem 1 1 2, Op.createOrderItem 1 2 1,
      Op.placeOrder 1 7], ⟨rfl, rfl, rfl⟩, by decide⟩
  refine ⟨h.1, fun o1 h1 hid1 => ?_⟩
  have h2 := h.2 demoPlacedOrder (by decide) (by decide)
    [Op.setMenuItemPrice 1 99900] o1 h1 hid1
  rw [h2]
  rfl

/-- Witness for C5: in the spec's distance scenario (contractor at the
origin, restaurant 0.05 degrees away at about 3.45 miles, customer 0.2
degrees away at about 13.8 miles, bound 5) the ready order is excluded from
the queue because the customer leg exceeds the bound. -/
theorem unassignedDeliveryQueue_membership_witness :
    demoReadyOrder ∉ unassignedDeliveryQueue demoReadyDB demoGeoDist
      demoContractor (effectiveMaxDistance (some (some 5))) ∧
    effectiveMaxDistance none = 5 := by
  have h := @unassignedDeliveryQueue_membership demoReadyDB
    demoReadyOrder (by decide) demoRestaurant (by decide)
    demoCustomer (by decide) demoGeoDist demoContractor
    (some (some 5))
  exact ⟨fun hmem => absurd (h.1.mp hmem).2.2.2 (by decide), h.2.1⟩

/-- Witness for C7: the in-transit scenario order is marked delivered, and
a second mark-as-delivered at a later time is rejected. -/
theorem markAsDelivered_once_witness :
    (markAsDelivered demoInTransitDB 7).isSome = true ∧
    markAsDelivered { demoDeliveredDB with now := 200 } 7 = none := by
  have h := markAsDelivered_once demoInTransitDB 7
  exact ⟨h.1.mpr (by decide),
    ((h.2 demoDeliveredDB (by decide)).2 200).1⟩

/-- Witness for C8 (amended): a non-numeric minutes-away payload on the
in-transit scenario order succeeds and clears the estimate, and the result
of the request does not depend on which contractor sent it. -/
theorem setMinutesAway_only_checks_inTransit_witness :
    (setMinutesAway demoInTransitDB 2 7 none).isSome = true ∧
    (∀ o1 ∈ demoClearedMinutesDB.orders, o1.id = 7 →
      o1.minutes_away = none) ∧
    setMinutesAway demoInTransitDB 2 7 (some 9) =
      setMinutesAway demoInTransitDB 5 7 (some 9) := by
  have h := setMinutesAway_only_checks_inTransit demoInTransitDB 2 7 none
  have h9 := setMinutesAway_only_checks_inTransit demoInTransitDB 2 7 (some 9)
  exact ⟨h.1.mpr (by decide), h.2.1 demoClearedMinutesDB (by decide),
    h9.2.2 5⟩

/-- Witness for C9 (amended): the emptied scenario cart is placed with a
frozen total of 0. -/
theorem placeOrder_allows_empty_cart_witness :
    demoEmptyCartDB.WF ∧ (placeOrder demoEmptyCartDB 1 7).isSome = true := by
  have hwf : demoEmptyCartDB.WF := by decide
  obtain ⟨db1, h1, h2, h3⟩ := @placeOrder_allows_empty_cart demoEmptyCartDB
    hwf (newUnplacedOrder 7 1 10) (by decide) 1 rfl rfl (by decide)
  have h1a : placeOrder demoEmptyCartDB 1 7 = some db1 := h1
  rw [h1a]
  exact ⟨hwf, rfl⟩

/-- Witness for C10: contractor 3, who has rejected the ready scenario
order, still accepts it successfully. -/
theorem acceptOrder_ignores_rejections_witness :
    3 ∈ demoRejectedOrder.rejected_by ∧
    (acceptOrder demoRejectedDB 3 7).isSome = true := by
  obtain ⟨db1, h1, h2⟩ := @acceptOrder_ignores_rejections demoRejectedDB
    (by decide) demoRejectedOrder (by decide) 3 (by decide) rfl rfl
  have h1a : acceptOrder demoRejectedDB 3 7 = some db1 := h1
  rw [h1a]
  exact ⟨by decide, rfl⟩

end DineDash
